import Mathlib

/-!
Verification of the docs-view update/cache/render pipeline.

This file gives a shallow embedding of the core logic of the
`vscode-docs-view` extension and proves properties of it:

* `src/baseView.ts` / `src/docsView.ts`: cache keys (`CacheKey`,
  `DocumentCacheKey.equals`, `cacheKeyEquals`, `createCacheKey`) and the
  controller's `update` state machine (cache check, pinned check,
  cancellation of the in-flight loading entry, dispatch of results).
* `src/docsView.ts` (pin-tracking variant): `getTranslationTo`,
  `isInRange`, `updatePinPosition`.
* `src/renderer.ts`: `Renderer.render` (fragment filtering and joining),
  with the external markdown engine and sanitizer as parameters.
* `src/codeHighlighter.ts`: the highlight closure returned by
  `CodeHighlighter.getHighlighter`, with the external `codeToHtml`
  service as a parameter that may fail (models a thrown exception).
* `media/main.js`: the webview panel's message handler.

JavaScript object identity (`===` on objects) is modelled by explicit
numeric object ids on heap-allocated values (`DocumentCacheKey.objId`,
`RangeObj.id`); the module-level singleton `cacheKeyNone` is the sole
value of the `CacheKey.none` constructor, so two `none` keys are always
reference-equal, exactly as in the running program.
-/

/-- A (line, character) pair, as `vscode.Position`. Both components are
nonnegative integers. -/
structure Position where
  line : Nat
  character : Nat
deriving DecidableEq, Repr

/-- `vscode.Position.translate(lineDelta, characterDelta)`: componentwise
translation. (vscode throws when a component would become negative; the
clamp below is never exercised by the theorems in this file.) -/
def Position.translate (p : Position) (lineDelta characterDelta : Int) : Position :=
  { line := ((p.line : Int) + lineDelta).toNat
    character := ((p.character : Int) + characterDelta).toNat }

/-- A `vscode.Range`: start and end positions. (`end` is a Lean keyword,
hence the field name `endPos`.) -/
structure Range where
  start : Position
  endPos : Position
deriving DecidableEq, Repr

/-- A range is valid (as every range handed out by vscode is) when its
start does not come after its end, lexicographically. -/
def Range.valid (r : Range) : Prop :=
  r.start.line < r.endPos.line ∨
    (r.start.line = r.endPos.line ∧ r.start.character ≤ r.endPos.character)

/-- A `vscode.Range` object together with its JavaScript object identity
(`id`), used to model `===` comparisons between range objects. -/
structure RangeObj where
  id : Nat
  start : Position
  endPos : Position
deriving DecidableEq, Repr

/-- `vscode.Range.isEqual`: structural equality of start and end positions
(object identity plays no role here). -/
def RangeObj.isEqual (a b : RangeObj) : Bool :=
  decide (a.start = b.start ∧ a.endPos = b.endPos)

/-- JavaScript `===` on the optional `wordRange` fields:
`undefined === undefined` is true, two range objects are `===` exactly
when they are the same object (same id), and `undefined` is never `===`
an object. -/
def rangeRefEq : Option RangeObj → Option RangeObj → Bool
  | Option.none, Option.none => true
  | some a, some b => a.id == b.id
  | _, _ => false

/-- The fields of a `DocumentCacheKey` (src/baseView.ts): document url
(compared via `toString()`, modelled as the string itself), document
version, and the word range under the cursor, plus the JavaScript object
identity `objId` of the key object itself. -/
structure DocumentCacheKey where
  objId : Nat
  url : String
  version : Nat
  wordRange : Option RangeObj
deriving DecidableEq, Repr

/-- `DocumentCacheKey.equals` (src/baseView.ts lines 84-102): urls must
match, versions must match; then if `other.wordRange === this.wordRange`
(reference equality, which also covers both being `undefined`) the keys
are equal; otherwise if either word range is absent they are unequal;
otherwise compare the ranges structurally with `Range.isEqual`. -/
def DocumentCacheKey.equals (a other : DocumentCacheKey) : Bool :=
  if a.url ≠ other.url then false
  else if a.version ≠ other.version then false
  else if rangeRefEq other.wordRange a.wordRange then true
  else
    match a.wordRange, other.wordRange with
    | some ra, some rb => ra.isEqual rb
    | _, _ => false

/-- `CacheKey = typeof cacheKeyNone | DocumentCacheKey`.  The `none`
constructor models the module-level singleton `cacheKeyNone`; since the
program only ever allocates that one `{ type: 'none' }` object, any two
`none` keys are reference-equal. -/
inductive CacheKey where
  | none
  | document (key : DocumentCacheKey)
deriving DecidableEq, Repr

/-- The `type` tag of a cache key (`'none'` or `'document'`). -/
def CacheKey.typeTag : CacheKey → String
  | CacheKey.none => "none"
  | CacheKey.document _ => "document"

/-- JavaScript `===` on cache keys: `cacheKeyNone` is a singleton, so two
`none` keys are the same object; two document keys are the same object
exactly when their object ids coincide; a `none` key is never the same
object as a document key. -/
def cacheKeyRefEq : CacheKey → CacheKey → Bool
  | CacheKey.none, CacheKey.none => true
  | CacheKey.document a, CacheKey.document b => a.objId == b.objId
  | _, _ => false

/-- `cacheKeyEquals` (src/baseView.ts lines 105-119): first `a === b`
(reference equality), then the type-tag comparison, then the explicit
"none never equals" check, finally `DocumentCacheKey.equals`. -/
def cacheKeyEquals (a b : CacheKey) : Bool :=
  if cacheKeyRefEq a b then true
  else if a.typeTag ≠ b.typeTag then false
  else
    match a, b with
    | CacheKey.document ka, CacheKey.document kb => ka.equals kb
    | _, _ => false

/-- The state of an editor, as far as `createCacheKey` consumes it:
document url, document version, and the word range at the cursor (if the
cursor touches a word). -/
structure EditorState where
  url : String
  version : Nat
  wordRangeAtCursor : Option RangeObj
deriving DecidableEq, Repr

/-- `createCacheKey` (src/baseView.ts lines 121-130): no active editor
gives the `cacheKeyNone` singleton; otherwise a freshly allocated
`DocumentCacheKey` (`freshId` models the new object's identity). -/
def createCacheKey (freshId : Nat) (editor : Option EditorState) : CacheKey :=
  match editor with
  | Option.none => CacheKey.none
  | some e => CacheKey.document ⟨freshId, e.url, e.version, e.wordRangeAtCursor⟩

example : cacheKeyEquals CacheKey.none CacheKey.none = true := by decide

example :
    cacheKeyEquals CacheKey.none (CacheKey.document ⟨0, "u", 1, Option.none⟩) = false := by
  decide

example :
    cacheKeyEquals (CacheKey.document ⟨0, "u", 1, Option.none⟩)
      (CacheKey.document ⟨1, "u", 1, Option.none⟩) = true := by decide

/-! ## Pin tracking (src/docsView.ts, pin-position variant) -/

/-- One entry of `event.contentChanges`
(`vscode.TextDocumentContentChangeEvent`): the replaced range, the
inserted text, and the length of the replaced text (`rangeLength`, which
is 0 exactly for pure insertions). -/
structure ContentChange where
  range : Range
  text : String
  rangeLength : Nat
deriving DecidableEq, Repr

/-- The accumulator of `getTranslationTo`. -/
structure Translation where
  lineDelta : Int
  characterDelta : Int
  pinWasOverwritten : Bool
deriving DecidableEq, Repr

/-- `isInRange` (src/docsView.ts lines 239-257): the pinned position is
inside the replaced range when its line lies within `[startLine, endLine]`,
its character is at least `startCharacter`, and either its character is at
most `endCharacter` or the range is a multi-line range whose start and end
characters are both 0 and whose start line is the pinned line (a newline
block replaced from column 0). -/
def isInRange (range : Range) (position : Option Position) : Bool :=
  match position with
  | Option.none => false
  | some p =>
    decide (p.line ≥ range.start.line) &&
    decide (p.line ≤ range.endPos.line) &&
    decide (p.character ≥ range.start.character) &&
    (decide (p.character ≤ range.endPos.character) ||
      (decide (range.start.character = 0) && decide (range.endPos.character = 0)) &&
        decide (range.start.line ≠ range.endPos.line) &&
        decide (range.start.line = p.line))

/-- JavaScript `text.split('\n')` on the underlying character list:
splitting an empty string yields `[""]`, and every `'\n'` starts a new
segment. (Defined structurally so that it evaluates inside the kernel;
`String.splitOn` is well-founded-recursive and does not.) -/
def splitCharsOnNewline : List Char → List (List Char)
  | [] => [[]]
  | c :: rest =>
    let r := splitCharsOnNewline rest
    if c = '\n' then [] :: r
    else (c :: r.headD []) :: r.tail

/-- JavaScript `text.split('\n')`. -/
def splitLines (text : String) : List String :=
  (splitCharsOnNewline text.data).map (fun cs => ⟨cs⟩)

example : splitLines "" = [""] := by decide

example : splitLines "\n" = ["", ""] := by decide

example : splitLines "ab\ncd" = ["ab", "cd"] := by decide

/-- The body of the `contentChanges.forEach` callback in `getTranslationTo`
(src/docsView.ts lines 202-234), processing one content change against the
fixed pinned `position`.  Edits starting strictly after the pinned line are
ignored; an edit containing the pin (per `isInRange`) sets
`pinWasOverwritten` and contributes no deltas; otherwise the line delta and
(when the edit starts on the pinned line and ends strictly before the
pinned character) the character delta are accumulated. -/
def applyContentChange (position : Position) (acc : Translation)
    (change : ContentChange) : Translation :=
  let startLine := change.range.start.line
  let startCharacter := change.range.start.character
  let endLine := change.range.endPos.line
  let endCharacter := change.range.endPos.character
  if startLine > position.line then acc
  else if isInRange change.range (some position) then
    { acc with pinWasOverwritten := true }
  else
    let isAddingText : Bool := change.rangeLength == 0
    let lines := splitLines change.text
    let changeStartsWithNewline : Bool := lines.headD "" == ""
    let isEditingLinesBeforeCurrentLine : Bool :=
      decide (startLine < position.line) ||
        (decide (startLine = position.line) && !changeStartsWithNewline)
    let diff : Int :=
      if isAddingText && isEditingLinesBeforeCurrentLine then
        ((splitLines change.text).length : Int) - 1
      else (endLine : Int) - (startLine : Int)
    let acc1 := { acc with lineDelta := acc.lineDelta + (if isAddingText then diff else -diff) }
    if startLine ≠ position.line ∨ position.character ≤ endCharacter then acc1
    else
      let changeEndsWithNewline : Bool := lines.getLastD "" == ""
      { acc1 with
          characterDelta := acc1.characterDelta +
            (if isAddingText then
              (if changeEndsWithNewline then 0 else (change.text.length : Int))
            else (startCharacter : Int) - (endCharacter : Int)) }

/-- `getTranslationTo` (src/docsView.ts lines 193-237): fold
`applyContentChange` over the batch of content changes, starting from zero
deltas and `pinWasOverwritten = false`. -/
def getTranslationTo (position : Position)
    (contentChanges : List ContentChange) : Translation :=
  contentChanges.foldl (applyContentChange position)
    { lineDelta := 0, characterDelta := 0, pinWasOverwritten := false }

/-- The pin state: optional pinned position and the path of the pinned
document (`markerStyle` is a purely visual decoration handle and carries
no tracked state). -/
structure PinData where
  position : Option Position
  documentPath : Option String
deriving DecidableEq, Repr

/-- A `vscode.TextDocumentChangeEvent`, as far as `updatePinPosition`
consumes it: the changed document's uri path and the batch of content
changes. -/
structure ChangeEvent where
  documentPath : String
  contentChanges : List ContentChange
deriving DecidableEq, Repr

/-- `updatePinPosition` (src/docsView.ts lines 127-146): if there is no
pinned position, the event is for another document, or the batch is empty,
nothing changes; otherwise compute the translation; a detected overwrite
unpins entirely (`unpin()` clears position and document), and otherwise
the pinned position is translated by the accumulated deltas. -/
def updatePinPosition (pin : PinData) (e : ChangeEvent) : PinData :=
  match pin.position with
  | Option.none => pin
  | some pos =>
    if pin.documentPath ≠ some e.documentPath ∨ e.contentChanges = [] then pin
    else
      let t := getTranslationTo pos e.contentChanges
      if t.pinWasOverwritten then
        { position := Option.none, documentPath := Option.none }
      else
        { pin with position := some (pos.translate t.lineDelta t.characterDelta) }

example :
    updatePinPosition ⟨some ⟨2, 5⟩, some "/doc.ts"⟩
      ⟨"/doc.ts", [⟨⟨⟨2, 0⟩, ⟨2, 10⟩⟩, "whatever", 10⟩]⟩
      = ⟨Option.none, Option.none⟩ := by decide

example :
    updatePinPosition ⟨some ⟨2, 5⟩, some "/doc.ts"⟩
      ⟨"/doc.ts", [⟨⟨⟨1, 0⟩, ⟨1, 0⟩⟩, "\n", 0⟩]⟩
      = ⟨some ⟨3, 5⟩, some "/doc.ts"⟩ := by decide

example :
    (getTranslationTo ⟨2, 5⟩ [⟨⟨⟨2, 3⟩, ⟨2, 5⟩⟩, "", 2⟩]).characterDelta = 0 := by
  decide

example :
    (getTranslationTo ⟨2, 5⟩ [⟨⟨⟨2, 3⟩, ⟨2, 5⟩⟩, "", 2⟩]).pinWasOverwritten = true := by
  decide

example :
    (getTranslationTo ⟨2, 5⟩ [⟨⟨⟨2, 0⟩, ⟨2, 4⟩⟩, "", 4⟩]).characterDelta = 0 - 4 := by
  decide

/-! ## Renderer (src/renderer.ts) -/

/-- One unit of hover content (`vscode.MarkedString | vscode.MarkdownString`):
a plain string, a `MarkdownString` (carrying its `value`), or a
`{ language, value }` code pair. -/
inductive HoverFragment where
  | plain (value : String)
  | markdownString (value : String)
  | codeBlock (value : String) (language : String)
deriving DecidableEq, Repr

/-- A `vscode.Hover`: a list of content fragments. -/
structure Hover where
  contents : List HoverFragment
deriving DecidableEq, Repr

/-- `vscode.MarkdownString.appendCodeblock(value, language)` starting from
an empty markdown string: a fenced code block tagged with the language. -/
def appendCodeblockValue (value language : String) : String :=
  "\n```" ++ language ++ "\n" ++ value ++ "\n```\n"

/-- `Renderer.getMarkdown` (src/renderer.ts lines 54-64): plain strings
pass through, `MarkdownString`s contribute their `value`, and code pairs
are wrapped in a fenced code block. -/
def getMarkdown : HoverFragment → String
  | HoverFragment.plain s => s
  | HoverFragment.markdownString v => v
  | HoverFragment.codeBlock v lang => appendCodeblockValue v lang

/-- `Renderer.render` (src/renderer.ts lines 31-52 resp. 92-109): flatten
the hovers' contents, convert each fragment to markdown, drop fragments of
length 0, and return the empty string when no fragment survives; otherwise
join the fragments with a `\n---\n` horizontal-rule separator and hand the
joined markdown to the external markdown engine (`markedParse`, which in
the source also performs code highlighting) and then to the external
sanitizer (`sanitize`; in the older variant sanitization is the engine's
`sanitize: true` option). -/
def render (markedParse sanitize : String → String) (hovers : List Hover) : String :=
  let parts :=
    ((hovers.flatMap Hover.contents).map getMarkdown).filter
      (fun content => content.length > 0)
  if parts.length = 0 then ""
  else sanitize (markedParse (String.intercalate "\n---\n" parts))

example : render id id [] = "" := by decide

example : render id id [⟨[HoverFragment.plain "", HoverFragment.plain "   "]⟩] = "   " := by
  decide

/-! ## Code highlighter (src/codeHighlighter.ts) -/

/-- An entry of the `languages` table: the grammar `name`, the markdown
language id it maps to (`language`, absent for the `git_commit` and
`git_rebase` entries), the identifiers that select it, and the TextMate
scope names (`source`, unused by `getLanguageId` but part of the table). -/
structure LanguageEntry where
  name : String
  language : Option String
  identifiers : List String
  source : List String
deriving DecidableEq, Repr

/-- The `languages` table of src/codeHighlighter.ts (lines 162-221). -/
def languages : List LanguageEntry := [
  ⟨"css", some "css", ["css", "css.erb"], ["source.css"]⟩,
  ⟨"basic", some "html", ["html", "htm", "shtml", "xhtml", "inc", "tmpl", "tpl"], ["text.html.basic"]⟩,
  ⟨"ini", some "ini", ["ini", "conf"], ["source.ini"]⟩,
  ⟨"java", some "java", ["java", "bsh"], ["source.java"]⟩,
  ⟨"lua", some "lua", ["lua"], ["source.lua"]⟩,
  ⟨"makefile", some "makefile", ["Makefile", "makefile", "GNUmakefile", "OCamlMakefile"], ["source.makefile"]⟩,
  ⟨"perl", some "perl", ["perl", "pl", "pm", "pod", "t", "PL", "psgi", "vcl"], ["source.perl"]⟩,
  ⟨"r", some "r", ["R", "r", "s", "S", "Rprofile"], ["source.r"]⟩,
  ⟨"ruby", some "ruby", ["ruby", "rb", "rbx", "rjs", "Rakefile", "rake", "cgi", "fcgi", "gemspec", "irbrc", "Capfile", "ru", "prawn", "Cheffile", "Gemfile", "Guardfile", "Hobofile", "Vagrantfile", "Appraisals", "Rantfile", "Berksfile", "Berksfile.lock", "Thorfile", "Puppetfile"], ["source.ruby"]⟩,
  ⟨"php", some "php", ["php", "php3", "php4", "php5", "phpt", "phtml", "aw", "ctp"], ["text.html.basic", "text.html.php", "source.php"]⟩,
  ⟨"sql", some "sql", ["sql", "ddl", "dml"], ["source.sql"]⟩,
  ⟨"vs_net", some "vs_net", ["vb"], ["source.asp.vb.net"]⟩,
  ⟨"xml", some "xml", ["xml", "xsd", "tld", "jsp", "pt", "cpt", "dtml", "rss", "opml"], ["text.xml"]⟩,
  ⟨"xsl", some "xsl", ["xsl", "xslt"], ["text.xml.xsl"]⟩,
  ⟨"yaml", some "yaml", ["yaml", "yml"], ["source.yaml"]⟩,
  ⟨"dosbatch", some "dosbatch", ["bat", "batch"], ["source.batchfile"]⟩,
  ⟨"clojure", some "clojure", ["clj", "cljs", "clojure"], ["source.clojure"]⟩,
  ⟨"coffee", some "coffee", ["coffee", "Cakefile", "coffee.erb"], ["source.coffee"]⟩,
  ⟨"c", some "c", ["c", "h"], ["source.c"]⟩,
  ⟨"cpp", some "cpp", ["cpp", "c\\+\\+", "cxx"], ["source.cpp"]⟩,
  ⟨"diff", some "diff", ["patch", "diff", "rej"], ["source.diff"]⟩,
  ⟨"dockerfile", some "dockerfile", ["dockerfile", "Dockerfile"], ["source.dockerfile"]⟩,
  ⟨"git_commit", Option.none, ["COMMIT_EDITMSG", "MERGE_MSG"], ["text.git-commit"]⟩,
  ⟨"git_rebase", Option.none, ["git-rebase-todo"], ["text.git-rebase"]⟩,
  ⟨"go", some "go", ["go", "golang"], ["source.go"]⟩,
  ⟨"groovy", some "groovy", ["groovy", "gvy"], ["source.groovy"]⟩,
  ⟨"pug", some "pug", ["jade", "pug"], ["text.pug"]⟩,
  ⟨"js", some "javascript", ["js", "jsx", "javascript", "es6", "mjs"], ["source.js"]⟩,
  ⟨"js_regexp", Option.none, ["regexp"], ["source.js.regexp"]⟩,
  ⟨"json", some "json", ["json", "json5", "sublime-settings", "sublime-menu", "sublime-keymap", "sublime-mousemap", "sublime-theme", "sublime-build", "sublime-project", "sublime-completions"], ["source.json"]⟩,
  ⟨"jsonc", some "jsonc", ["jsonc"], ["source.json.comments"]⟩,
  ⟨"less", some "less", ["less"], ["source.css.less"]⟩,
  ⟨"objc", some "objc", ["objectivec", "objective-c", "mm", "objc", "obj-c", "m", "h"], ["source.objc"]⟩,
  ⟨"swift", some "swift", ["swift"], ["source.swift"]⟩,
  ⟨"scss", some "scss", ["scss"], ["source.css.scss"]⟩,
  ⟨"perl6", some "perl6", ["perl6", "p6", "pl6", "pm6", "nqp"], ["source.perl.6"]⟩,
  ⟨"powershell", some "powershell", ["powershell", "ps1", "psm1", "psd1"], ["source.powershell"]⟩,
  ⟨"python", some "python", ["python", "py", "py3", "rpy", "pyw", "cpy", "SConstruct", "Sconstruct", "sconstruct", "SConscript", "gyp", "gypi"], ["source.python"]⟩,
  ⟨"regexp_python", Option.none, ["re"], ["source.regexp.python"]⟩,
  ⟨"rust", some "rust", ["rust", "rs"], ["source.rust"]⟩,
  ⟨"scala", some "scala", ["scala", "sbt"], ["source.scala"]⟩,
  ⟨"shell", some "shellscript", ["shell", "sh", "bash", "zsh", "bashrc", "bash_profile", "bash_login", "profile", "bash_logout", ".textmate_init"], ["source.shell"]⟩,
  ⟨"ts", some "typescript", ["typescript", "ts"], ["source.ts"]⟩,
  ⟨"tsx", some "typescriptreact", ["tsx"], ["source.tsx"]⟩,
  ⟨"csharp", some "csharp", ["cs", "csharp", "c#"], ["source.cs"]⟩,
  ⟨"fsharp", some "fsharp", ["fs", "fsharp", "f#"], ["source.fsharp"]⟩,
  ⟨"dart", some "dart", ["dart"], ["source.dart"]⟩,
  ⟨"handlebars", some "handlebars", ["handlebars", "hbs"], ["text.html.handlebars"]⟩,
  ⟨"markdown", some "markdown", ["markdown", "md"], ["text.html.markdown"]⟩,
  ⟨"haskell", some "haskell", ["hs", "lhs"], ["text.html.hs"]⟩,
  ⟨"ocaml", some "ocaml", ["ml", "mli", "eliom", "eliomi"], ["source.ocaml.interface"]⟩,
  ⟨"zig", some "zig", ["zig"], ["source.zig"]⟩,
  ⟨"d", some "d", ["d"], ["source.d"]⟩]

/-- `getLanguageId` (src/codeHighlighter.ts lines 120-127): the first
table entry whose `name` or identifier list matches yields its markdown
language id (which may itself be absent, as for `git_commit`). -/
def getLanguageId (inId : String) : Option String :=
  match languages.find? (fun l => inId == l.name || l.identifiers.contains inId) with
  | some l => l.language
  | Option.none => Option.none

/-- The external shiki failure: `codeToHtml` throwing on unsupported
languages or malformed code. -/
inductive HighlightFailure where
  | thrown
deriving DecidableEq, Repr

/-- The closure returned by `CodeHighlighter.getHighlighter`
(src/codeHighlighter.ts lines 61-79), for a resolved `highlighter`
(`Option` models the awaited `this._highlighter`, and the external
`codeToHtml` call is a function that may fail, modelling a thrown
exception).  The markdown language hint falls back to the host document's
language id; when the hint resolves in the language table the external
service is invoked inside `try`, and on failure (or when anything is
missing) the original unhighlighted code is returned. -/
def highlighterClosure
    (highlighter : Option (String → String → Except HighlightFailure String))
    (docLanguageId : String) (code inputLanguage : String) : String :=
  let language := if inputLanguage = "" then docLanguageId else inputLanguage
  match highlighter with
  | some codeToHtml =>
    if language ≠ "" then
      match getLanguageId language with
      | some languageId =>
        match codeToHtml code languageId with
        | Except.ok html => html
        | Except.error _ => code
      | Option.none => code
    else code
  | Option.none => code

example : getLanguageId "js" = some "javascript" := by decide

example : getLanguageId "COMMIT_EDITMSG" = Option.none := by decide

example :
    highlighterClosure (some fun _ _ => Except.error HighlightFailure.thrown)
      "typescript" "let x = 1" "js" = "let x = 1" := by decide

/-! ## Update controller (src/docsView.ts `update`, base-view variant;
identical in src/signatureInfoView.ts lines 142-206) -/

/-- The `docsView.*.updateMode` configuration value. -/
inductive UpdateMode where
  | live
  | sticky
deriving DecidableEq, Repr

/-- A message posted to the webview panel
(`this._view?.webview.postMessage(...)`): either rendered content or the
"no content" notice, both tagged with the configured update mode. -/
inductive PanelMsg where
  | update (body : String) (updateMode : UpdateMode)
  | noContent (body : String) (updateMode : UpdateMode)
deriving DecidableEq, Repr

/-- The `body` of the `noContent` message. -/
def noContentBody : String := "No documentation found at current cursor position"

/-- The controller's state.  `loading` holds the id of the current loading
entry (`this._loading`, fresh ids model fresh `{ cts }` objects so that
`this._loading !== loadingEntry` is id inequality), `cancelled` the ids of
the entries whose cancellation token source was cancelled, `inFlight` the
ids of spawned fetches whose continuation has not yet run, and `panel` the
messages posted so far, each tagged with the id of the fetch that posted
it. -/
structure CtrlState where
  hasView : Bool
  pinned : Bool
  updateMode : UpdateMode
  title : Option String
  currentCacheKey : CacheKey
  loading : Option Nat
  nextToken : Nat
  cancelled : List Nat
  inFlight : List Nat
  panel : List (Nat × PanelMsg)
deriving DecidableEq, Repr

/-- `updateTitle` (src/baseView.ts lines 49-54): with a view, set the
description to `"(pinned)"` when pinned and clear it otherwise. -/
def CtrlState.updateTitle (s : CtrlState) : CtrlState :=
  if s.hasView then
    { s with title := if s.pinned then some "(pinned)" else Option.none }
  else s

/-- The cancel-then-replace block of `update` (src/docsView.ts lines
594-600): cancel and drop the current loading entry if any, then install a
fresh loading entry (fresh id) and record its spawned fetch. -/
def CtrlState.startLoading (s : CtrlState) : CtrlState :=
  let s1 :=
    match s.loading with
    | some t => { s with cancelled := t :: s.cancelled, loading := Option.none }
    | Option.none => s
  { s1 with
      loading := some s1.nextToken
      inFlight := s1.inFlight ++ [s1.nextToken]
      nextToken := s1.nextToken + 1 }

/-- `update(ignoreCache)` (src/docsView.ts lines 576-600, the synchronous
prefix): return if there is no view; refresh the title; return if pinned;
compute the new cache key (`newKey`, supplied by the environment as the
result of `createCacheKey(vscode.window.activeTextEditor)`) and return on
a cache hit unless the cache is ignored; otherwise commit the new key,
cancel the in-flight loading entry and start a new one. -/
def CtrlState.update (s : CtrlState) (ignoreCache : Bool) (newKey : CacheKey) : CtrlState :=
  if s.hasView = false then s
  else
    let s1 := s.updateTitle
    if s1.pinned then s1
    else if !ignoreCache && cacheKeyEquals s1.currentCacheKey newKey then s1
    else ({ s1 with currentCacheKey := newKey }).startLoading

/-- The continuation of the fetch spawned by `update` (src/docsView.ts
lines 602-627), running when the fetch with id `tok` resolves with `html`
(the rendered content supplied by the environment; an empty string for "no
hovers", including the case where the fetch observed its own cancellation).
If the token was cancelled, or a new loading entry has replaced this one
(`this._loading !== loadingEntry`), the result is discarded; otherwise the
loading entry is cleared and the result is posted to the panel: `update`
for nonempty content, `noContent` otherwise. -/
def CtrlState.complete (s : CtrlState) (tok : Nat) (html : String) : CtrlState :=
  if tok ∈ s.inFlight then
    let s1 := { s with inFlight := s.inFlight.erase tok }
    if tok ∈ s1.cancelled then s1
    else if s1.loading ≠ some tok then s1
    else
      let s2 := { s1 with loading := Option.none }
      if s2.hasView then
        if html.length ≠ 0 then
          { s2 with panel := s2.panel ++ [(tok, PanelMsg.update html s2.updateMode)] }
        else
          { s2 with panel := s2.panel ++ [(tok, PanelMsg.noContent noContentBody s2.updateMode)] }
      else s2
  else s

/-- An externally triggered event: a call to `update` (with the
environment-computed cache key), or the resolution of a spawned fetch. -/
inductive Event where
  | upd (ignoreCache : Bool) (newKey : CacheKey)
  | complete (tok : Nat) (html : String)

/-- One controller step. -/
def stepEv (s : CtrlState) : Event → CtrlState
  | Event.upd ignoreCache newKey => s.update ignoreCache newKey
  | Event.complete tok html => s.complete tok html

/-- Run a sequence of events. -/
def steps (s : CtrlState) : List Event → CtrlState :=
  List.foldl stepEv s

/-- The controller's state at construction time (src/baseView.ts lines
15-20): no view yet resolved (`hasView` records whether
`resolveWebviewView` has run), not pinned, `cacheKeyNone` as current key,
no loading entry; the configured update mode is a parameter. -/
def initCtrlState (hasView pinned : Bool) (mode : UpdateMode) : CtrlState :=
  { hasView := hasView
    pinned := pinned
    updateMode := mode
    title := Option.none
    currentCacheKey := CacheKey.none
    loading := Option.none
    nextToken := 0
    cancelled := []
    inFlight := []
    panel := [] }

/-- A controller state reachable from some initial state by a sequence of
update calls and fetch completions. -/
def ReachableCtrl (s : CtrlState) : Prop :=
  ∃ hasView pinned mode tr, steps (initCtrlState hasView pinned mode) tr = s

/-- Structural invariant of the controller: the current loading entry is
the most recently allocated id, and every spawned or cancelled id was
allocated before `nextToken`. -/
def CtrlInv (s : CtrlState) : Prop :=
  (∀ t, s.loading = some t → t + 1 = s.nextToken) ∧
  (∀ t ∈ s.inFlight, t < s.nextToken) ∧
  (∀ t ∈ s.cancelled, t < s.nextToken)

/-- A fetch id is superseded when it was allocated but is no longer the
current loading entry. -/
def Superseded (s : CtrlState) (a : Nat) : Prop :=
  a < s.nextToken ∧ s.loading ≠ some a

/-! ## Webview panel (media/main.js) -/

/-- The state the panel persists via `vscode.setState`: the last HTML body
(absent after a `noContent`) and the `noContent` flag (`false` models the
property being absent from the stored object). -/
structure WebviewState where
  body : Option String
  noContent : Bool
deriving DecidableEq, Repr

/-- The panel's runtime state: the contents of the `#main` element, the
persisted state (absent for a fresh panel), and the `hasUpdated` flag. -/
structure PanelState where
  displayed : String
  savedState : Option WebviewState
  hasUpdated : Bool
deriving DecidableEq, Repr

/-- A fresh panel: empty `#main`, no persisted state, `hasUpdated = false`. -/
def initPanelState : PanelState :=
  { displayed := "", savedState := Option.none, hasUpdated := false }

/-- `setNoContent(message)` renders the styled placeholder. -/
def noContentHtml (message : String) : String :=
  "<p class=\x22no-content\x22>" ++ message ++ "</p>"

/-- The panel's message listener (media/main.js lines 24-55): an `update`
message always replaces the displayed content and persists it
(`setState(\x7b body \x7d)`); a `noContent` message replaces the content with
the placeholder and persists the `noContent` flag only when the panel has
not yet shown anything (`!hasUpdated`) or the mode is `live`; in every
case `hasUpdated` becomes true. -/
def handleMessage (s : PanelState) : PanelMsg → PanelState
  | PanelMsg.update body _ =>
    { displayed := body
      savedState := some { body := some body, noContent := false }
      hasUpdated := true }
  | PanelMsg.noContent body mode =>
    if s.hasUpdated = false ∨ mode = UpdateMode.live then
      { displayed := noContentHtml body
        savedState := some { body := Option.none, noContent := true }
        hasUpdated := true }
    else { s with hasUpdated := true }

example :
    (handleMessage (handleMessage initPanelState (PanelMsg.update "X" UpdateMode.sticky))
      (PanelMsg.noContent "n" UpdateMode.sticky)).displayed = "X" := by decide

example :
    (handleMessage (handleMessage initPanelState (PanelMsg.update "X" UpdateMode.sticky))
      (PanelMsg.noContent "n" UpdateMode.sticky)).savedState
      = some { body := some "X", noContent := false } := by decide

example :
    (handleMessage (handleMessage initPanelState (PanelMsg.update "X" UpdateMode.live))
      (PanelMsg.noContent "n" UpdateMode.live)).displayed = noContentHtml "n" := by decide

/-! ## Controller lemmas -/

theorem updateTitle_hasView (s : CtrlState) (h : s.hasView = true) :
    s.updateTitle = { s with title := if s.pinned then some "(pinned)" else Option.none } := by
  unfold CtrlState.updateTitle
  rw [if_pos h]

theorem updateTitle_noView (s : CtrlState) (h : s.hasView = false) :
    s.updateTitle = s := by
  unfold CtrlState.updateTitle
  rw [h]
  rfl

/-- `update` with no resolved view is a no-op. -/
theorem update_noView (s : CtrlState) (ic : Bool) (k : CacheKey) (h : s.hasView = false) :
    s.update ic k = s := by
  simp [CtrlState.update, h]

/-- `update` on a pinned view stops right after refreshing the title. -/
theorem update_pinned (s : CtrlState) (ic : Bool) (k : CacheKey)
    (hView : s.hasView = true) (hPin : s.pinned = true) :
    s.update ic k = { s with title := some "(pinned)" } := by
  simp [CtrlState.update, CtrlState.updateTitle, hView, hPin]

/-- `update` on a cache hit (cache not ignored) stops right after
refreshing the title. -/
theorem update_cacheHit (s : CtrlState) (ic : Bool) (k : CacheKey)
    (hView : s.hasView = true) (hPin : s.pinned = false)
    (hHit : (!ic && cacheKeyEquals s.currentCacheKey k) = true) :
    s.update ic k = { s with title := Option.none } := by
  simp [CtrlState.update, CtrlState.updateTitle, hView, hPin, hHit]

/-- The synchronous prefix of `update` when none of the early returns
fire: title cleared, new key committed, current loading entry cancelled,
fresh loading entry installed. -/
theorem update_go (s : CtrlState) (ic : Bool) (k : CacheKey)
    (hView : s.hasView = true) (hPin : s.pinned = false)
    (hGo : (!ic && cacheKeyEquals s.currentCacheKey k) = false) :
    s.update ic k = { s with
      title := Option.none
      currentCacheKey := k
      cancelled := match s.loading with
        | some t => t :: s.cancelled
        | Option.none => s.cancelled
      loading := some s.nextToken
      inFlight := s.inFlight ++ [s.nextToken]
      nextToken := s.nextToken + 1 } := by
  cases hl : s.loading <;>
    simp [CtrlState.update, CtrlState.updateTitle, CtrlState.startLoading, hView, hPin, hGo, hl]

theorem ctrlInv_init (hv p : Bool) (m : UpdateMode) : CtrlInv (initCtrlState hv p m) := by
  refine ⟨?_, ?_, ?_⟩ <;> simp [initCtrlState]

theorem ctrlInv_update (s : CtrlState) (h : CtrlInv s) (ic : Bool) (k : CacheKey) :
    CtrlInv (s.update ic k) := by
  obtain ⟨h1, h2, h3⟩ := h
  cases hv : s.hasView
  · rw [update_noView s ic k hv]
    exact ⟨h1, h2, h3⟩
  · cases hp : s.pinned
    · cases hGo : (!ic && cacheKeyEquals s.currentCacheKey k)
      · rw [update_go s ic k hv hp hGo]
        refine ⟨?_, ?_, ?_⟩ <;> dsimp only
        · intro t ht
          simp only [Option.some.injEq] at ht
          omega
        · intro t ht
          simp only [List.mem_append, List.mem_singleton] at ht
          rcases ht with ht | rfl
          · exact Nat.lt_succ_of_lt (h2 t ht)
          · exact Nat.lt_succ_self _
        · intro t ht
          cases hl : s.loading with
          | none =>
            rw [hl] at ht
            exact Nat.lt_succ_of_lt (h3 t ht)
          | some u =>
            rw [hl] at ht
            simp only [List.mem_cons] at ht
            rcases ht with rfl | ht
            · have := h1 t hl
              omega
            · exact Nat.lt_succ_of_lt (h3 t ht)
      · rw [update_cacheHit s ic k hv hp hGo]
        exact ⟨h1, h2, h3⟩
    · rw [update_pinned s ic k hv hp]
      exact ⟨h1, h2, h3⟩

/-- `complete` for a fetch that no longer exists is a no-op (this case
never arises in a real trace; each promise resolves once). -/
theorem complete_notInFlight (s : CtrlState) (tok : Nat) (html : String)
    (hin : tok ∉ s.inFlight) : s.complete tok html = s := by
  simp [CtrlState.complete, hin]

/-- `complete` for a cancelled fetch discards the result. -/
theorem complete_cancelled (s : CtrlState) (tok : Nat) (html : String)
    (hin : tok ∈ s.inFlight) (hc : tok ∈ s.cancelled) :
    s.complete tok html = { s with inFlight := s.inFlight.erase tok } := by
  simp [CtrlState.complete, hin, hc]

/-- `complete` for a fetch that is no longer the current loading entry
discards the result. -/
theorem complete_stale (s : CtrlState) (tok : Nat) (html : String)
    (hin : tok ∈ s.inFlight) (hc : tok ∉ s.cancelled) (hl : s.loading ≠ some tok) :
    s.complete tok html = { s with inFlight := s.inFlight.erase tok } := by
  simp [CtrlState.complete, hin, hc, hl]

/-- `complete` for the current, uncancelled fetch commits: the loading
entry is cleared and the result is posted. -/
theorem complete_dispatch (s : CtrlState) (tok : Nat) (html : String)
    (hin : tok ∈ s.inFlight) (hc : tok ∉ s.cancelled) (hl : s.loading = some tok)
    (hv : s.hasView = true) :
    s.complete tok html = { s with
      inFlight := s.inFlight.erase tok
      loading := Option.none
      panel := s.panel ++
        [(tok, if html.length ≠ 0 then PanelMsg.update html s.updateMode
               else PanelMsg.noContent noContentBody s.updateMode)] } := by
  by_cases hh : html.length ≠ 0 <;> simp [CtrlState.complete, hin, hc, hl, hv, hh]

/-- `complete` for the current, uncancelled fetch when the view is gone:
the loading entry is cleared but nothing is posted. -/
theorem complete_dispatch_noView (s : CtrlState) (tok : Nat) (html : String)
    (hin : tok ∈ s.inFlight) (hc : tok ∉ s.cancelled) (hl : s.loading = some tok)
    (hv : s.hasView = false) :
    s.complete tok html = { s with
      inFlight := s.inFlight.erase tok
      loading := Option.none } := by
  simp [CtrlState.complete, hin, hc, hl, hv]

theorem ctrlInv_complete (s : CtrlState) (h : CtrlInv s) (tok : Nat) (html : String) :
    CtrlInv (s.complete tok html) := by
  obtain ⟨h1, h2, h3⟩ := h
  have herase : ∀ t, t ∈ s.inFlight.erase tok → t < s.nextToken :=
    fun t ht => h2 t (List.erase_subset _ _ ht)
  by_cases hin : tok ∈ s.inFlight
  · by_cases hc : tok ∈ s.cancelled
    · rw [complete_cancelled s tok html hin hc]
      exact ⟨h1, herase, h3⟩
    · by_cases hl : s.loading = some tok
      · cases hv : s.hasView
        · rw [complete_dispatch_noView s tok html hin hc hl hv]
          refine ⟨?_, herase, h3⟩
          intro t ht
          simp at ht
        · rw [complete_dispatch s tok html hin hc hl hv]
          refine ⟨?_, herase, h3⟩
          intro t ht
          simp at ht
      · rw [complete_stale s tok html hin hc hl]
        exact ⟨h1, herase, h3⟩
  · rw [complete_notInFlight s tok html hin]
    exact ⟨h1, h2, h3⟩

theorem ctrlInv_stepEv (s : CtrlState) (h : CtrlInv s) (e : Event) : CtrlInv (stepEv s e) := by
  cases e with
  | upd ic k => exact ctrlInv_update s h ic k
  | complete tok html => exact ctrlInv_complete s h tok html

theorem ctrlInv_steps (tr : List Event) :
    ∀ s : CtrlState, CtrlInv s → CtrlInv (steps s tr) := by
  induction tr with
  | nil => intro s h; exact h
  | cons e tr ih => intro s h; exact ih (stepEv s e) (ctrlInv_stepEv s h e)

theorem ctrlInv_of_reachable (s : CtrlState) (h : ReachableCtrl s) : CtrlInv s := by
  obtain ⟨hv, p, m, tr, rfl⟩ := h
  exact ctrlInv_steps tr _ (ctrlInv_init hv p m)

/-- Once superseded, a fetch id stays superseded through any step: ids are
allocated in increasing order, so a fresh loading entry can never reuse
it, and `complete` never installs a loading entry. -/
theorem superseded_stepEv (s : CtrlState) (a : Nat) (hs : Superseded s a) (e : Event) :
    Superseded (stepEv s e) a := by
  obtain ⟨hlt, hne⟩ := hs
  cases e with
  | upd ic k =>
    show Superseded (s.update ic k) a
    cases hv : s.hasView
    · rw [update_noView s ic k hv]
      exact ⟨hlt, hne⟩
    · cases hp : s.pinned
      · cases hGo : (!ic && cacheKeyEquals s.currentCacheKey k)
        · rw [update_go s ic k hv hp hGo]
          refine ⟨?_, ?_⟩ <;> dsimp only
          · omega
          · intro hcontra
            simp only [Option.some.injEq] at hcontra
            omega
        · rw [update_cacheHit s ic k hv hp hGo]
          exact ⟨hlt, hne⟩
      · rw [update_pinned s ic k hv hp]
        exact ⟨hlt, hne⟩
  | complete tok html =>
    show Superseded (s.complete tok html) a
    by_cases hin : tok ∈ s.inFlight
    · by_cases hc : tok ∈ s.cancelled
      · rw [complete_cancelled s tok html hin hc]
        exact ⟨hlt, hne⟩
      · by_cases hl : s.loading = some tok
        · cases hv : s.hasView
          · rw [complete_dispatch_noView s tok html hin hc hl hv]
            exact ⟨hlt, by simp⟩
          · rw [complete_dispatch s tok html hin hc hl hv]
            exact ⟨hlt, by simp⟩
        · rw [complete_stale s tok html hin hc hl]
          exact ⟨hlt, hne⟩
    · rw [complete_notInFlight s tok html hin]
      exact ⟨hlt, hne⟩

/-- A single step never posts a message carrying a superseded fetch id:
every panel entry of the next state is either an old entry or tagged with
a different id. -/
theorem panel_stepEv_superseded (s : CtrlState) (a : Nat) (hs : Superseded s a) (e : Event) :
    ∀ p ∈ (stepEv s e).panel, p ∈ s.panel ∨ p.1 ≠ a := by
  obtain ⟨hlt, hne⟩ := hs
  intro p hp
  cases e with
  | upd ic k =>
    refine Or.inl ?_
    cases hv : s.hasView
    · rwa [show stepEv s (Event.upd ic k) = s.update ic k from rfl,
        update_noView s ic k hv] at hp
    · cases hgp : s.pinned
      · cases hGo : (!ic && cacheKeyEquals s.currentCacheKey k)
        · rw [show stepEv s (Event.upd ic k) = s.update ic k from rfl,
            update_go s ic k hv hgp hGo] at hp
          exact hp
        · rw [show stepEv s (Event.upd ic k) = s.update ic k from rfl,
            update_cacheHit s ic k hv hgp hGo] at hp
          exact hp
      · rw [show stepEv s (Event.upd ic k) = s.update ic k from rfl,
          update_pinned s ic k hv hgp] at hp
        exact hp
  | complete tok html =>
    by_cases hin : tok ∈ s.inFlight
    · by_cases hc : tok ∈ s.cancelled
      · rw [show stepEv s (Event.complete tok html) = s.complete tok html from rfl,
          complete_cancelled s tok html hin hc] at hp
        exact Or.inl hp
      · by_cases hl : s.loading = some tok
        · cases hv : s.hasView
          · rw [show stepEv s (Event.complete tok html) = s.complete tok html from rfl,
              complete_dispatch_noView s tok html hin hc hl hv] at hp
            exact Or.inl hp
          · rw [show stepEv s (Event.complete tok html) = s.complete tok html from rfl,
              complete_dispatch s tok html hin hc hl hv] at hp
            simp only [List.mem_append, List.mem_singleton] at hp
            rcases hp with hp | rfl
            · exact Or.inl hp
            · refine Or.inr ?_
              intro hcontra
              exact hne (hcontra ▸ hl)
        · rw [show stepEv s (Event.complete tok html) = s.complete tok html from rfl,
            complete_stale s tok html hin hc hl] at hp
          exact Or.inl hp
    · rw [show stepEv s (Event.complete tok html) = s.complete tok html from rfl,
        complete_notInFlight s tok html hin] at hp
      exact Or.inl hp

/-- Along any trace starting from a state in which fetch id `a` is
superseded, every panel entry is an old one or tagged with a different
fetch id: a superseded fetch never dispatches. -/
theorem panel_steps_superseded (tr : List Event) :
    ∀ s : CtrlState, ∀ a : Nat, Superseded s a →
      ∀ p ∈ (steps s tr).panel, p ∈ s.panel ∨ p.1 ≠ a := by
  induction tr with
  | nil => intro s a _ p hp; exact Or.inl hp
  | cons e tr ih =>
    intro s a hs p hp
    rcases ih (stepEv s e) a (superseded_stepEv s a hs e) p hp with h | h
    · exact panel_stepEv_superseded s a hs e p h
    · exact Or.inr h

/-! ## Claim theorems: controller -/

/-- C1: For every sequence of calls to the controller's `update`, a fetch
whose loading token has been superseded never dispatches its result.
Concretely: from any reachable state in which fetch A (id `a`) holds the
current loading entry, an `update` call B that passes the view, pin and
cache guards (i) cancels A's token and installs a fresh token for B before
anything else can run, (ii) guarantees that no continuation of the trace
ever posts a message tagged with A's id, and (iii) in the concrete
interleaving where B's fetch completes and then A's result arrives, the
panel receives exactly B's message (A's result is discarded), regardless
of either fetch's content. -/
theorem superseded_fetch_never_dispatches
    (s : CtrlState) (a : Nat) (ic : Bool) (k : CacheKey)
    (hReach : ReachableCtrl s)
    (hView : s.hasView = true) (hPin : s.pinned = false)
    (hA : s.loading = some a)
    (hGo : ic = true ∨ cacheKeyEquals s.currentCacheKey k = false) :
    (a ∈ (s.update ic k).cancelled ∧
      (s.update ic k).loading = some s.nextToken ∧ a ≠ s.nextToken) ∧
    (∀ tr : List Event, ∀ p ∈ (steps (s.update ic k) tr).panel, p ∈ s.panel ∨ p.1 ≠ a) ∧
    (∀ htmlB htmlA : String,
      (steps (s.update ic k)
          [Event.complete s.nextToken htmlB, Event.complete a htmlA]).panel
        = s.panel ++
          [(s.nextToken,
            if htmlB.length ≠ 0 then PanelMsg.update htmlB s.updateMode
            else PanelMsg.noContent noContentBody s.updateMode)]) := by
  obtain ⟨h1, h2, h3⟩ := ctrlInv_of_reachable s hReach
  have ha1 : a + 1 = s.nextToken := h1 a hA
  have hGo' : (!ic && cacheKeyEquals s.currentCacheKey k) = false := by
    rcases hGo with h | h <;> simp [h]
  have hupd : s.update ic k = { s with
      title := Option.none
      currentCacheKey := k
      cancelled := a :: s.cancelled
      loading := some s.nextToken
      inFlight := s.inFlight ++ [s.nextToken]
      nextToken := s.nextToken + 1 } := by
    rw [update_go s ic k hView hPin hGo', hA]
  refine ⟨?_, ?_, ?_⟩
  · rw [hupd]
    exact ⟨List.mem_cons_self a s.cancelled, rfl, by omega⟩
  · intro tr p hp
    rw [hupd] at hp
    have hsup : Superseded { s with
        title := Option.none
        currentCacheKey := k
        cancelled := a :: s.cancelled
        loading := some s.nextToken
        inFlight := s.inFlight ++ [s.nextToken]
        nextToken := s.nextToken + 1 } a := by
      refine ⟨?_, ?_⟩ <;> dsimp only
      · omega
      · intro hcontra
        simp only [Option.some.injEq] at hcontra
        omega
    exact panel_steps_superseded tr _ a hsup p hp
  · intro htmlB htmlA
    rw [hupd]
    set s' : CtrlState := { s with
      title := Option.none
      currentCacheKey := k
      cancelled := a :: s.cancelled
      loading := some s.nextToken
      inFlight := s.inFlight ++ [s.nextToken]
      nextToken := s.nextToken + 1 } with hs'
    have hin : s.nextToken ∈ s'.inFlight := by
      rw [hs']
      exact List.mem_append_right _ (List.mem_singleton_self _)
    have hc : s.nextToken ∉ s'.cancelled := by
      rw [hs']
      dsimp only
      intro hmem
      rcases List.mem_cons.1 hmem with heq | hmem
      · omega
      · exact absurd (h3 _ hmem) (by omega)
    have hstep1 : s'.complete s.nextToken htmlB = { s' with
        inFlight := s'.inFlight.erase s.nextToken
        loading := Option.none
        panel := s'.panel ++
          [(s.nextToken,
            if htmlB.length ≠ 0 then PanelMsg.update htmlB s'.updateMode
            else PanelMsg.noContent noContentBody s'.updateMode)] } :=
      complete_dispatch s' s.nextToken htmlB hin hc rfl hView
    show ((s'.complete s.nextToken htmlB).complete a htmlA).panel = _
    rw [hstep1]
    set sB : CtrlState := { s' with
      inFlight := s'.inFlight.erase s.nextToken
      loading := Option.none
      panel := s'.panel ++
        [(s.nextToken,
          if htmlB.length ≠ 0 then PanelMsg.update htmlB s'.updateMode
          else PanelMsg.noContent noContentBody s'.updateMode)] } with hsB
    by_cases hain : a ∈ sB.inFlight
    · rw [complete_cancelled sB a htmlA hain (List.mem_cons_self a s.cancelled)]
    · rw [complete_notInFlight sB a htmlA hain]

/-- C3: With the view pinned, an `update` call that is not a forced
refresh only refreshes the title decoration: the resulting state differs
from the old one at most in the title (set to the "(pinned)" decoration),
so in particular the cache key, the loading token and the posted panel
messages are untouched and no fetch is started. -/
theorem pinned_update_refreshes_only_title (s : CtrlState) (k : CacheKey)
    (hView : s.hasView = true) (hPin : s.pinned = true) :
    s.update false k = { s with title := some "(pinned)" } ∧
    (s.update false k).currentCacheKey = s.currentCacheKey ∧
    (s.update false k).loading = s.loading ∧
    (s.update false k).panel = s.panel ∧
    (s.update false k).inFlight = s.inFlight ∧
    (s.update false k).cancelled = s.cancelled := by
  have h := update_pinned s false k hView hPin
  rw [h]
  exact ⟨rfl, rfl, rfl, rfl, rfl, rfl⟩

/-! ## Claim theorems: cache keys -/

theorem rangeRefEq_symm (x y : Option RangeObj) : rangeRefEq x y = rangeRefEq y x := by
  cases x <;> cases y <;> simp [rangeRefEq]
  exact ⟨fun h => h.symm, fun h => h.symm⟩

theorem rangeObj_isEqual_symm (x y : RangeObj) : x.isEqual y = y.isEqual x := by
  simp only [RangeObj.isEqual, decide_eq_decide]
  constructor <;> rintro ⟨h1, h2⟩ <;> exact ⟨h1.symm, h2.symm⟩

theorem documentCacheKey_equals_symm (a b : DocumentCacheKey) : a.equals b = b.equals a := by
  obtain ⟨ia, ua, va, ra⟩ := a
  obtain ⟨ib, ub, vb, rb⟩ := b
  unfold DocumentCacheKey.equals
  dsimp only
  by_cases hu : ua = ub
  · subst hu
    by_cases hv : va = vb
    · subst hv
      rw [rangeRefEq_symm rb ra]
      cases ra <;> cases rb <;> simp [rangeRefEq]
      rw [rangeObj_isEqual_symm]
    · simp [hv, Ne.symm hv]
  · simp [hu, Ne.symm hu]

/-- C2 counterexample: the two `none` keys are the same singleton object,
so the `a === b` fast path of `cacheKeyEquals` fires and the function
returns `true` — not `false` as the claim states for the both-`None`
case. -/
theorem cacheKeyEquals_none_none_is_true :
    cacheKeyEquals CacheKey.none CacheKey.none = true := by decide

/-- C2 (amended): the equality function returns `false` whenever exactly
one side is the `None` key, but for the both-`None` pair the singleton's
reference equality makes it return `true`; consequently an update
evaluated with no active editor (`createCacheKey` of no editor is `None`)
while the committed key is already `None` does take the cache-hit no-op
path (only the title is refreshed, no fetch is started). -/
theorem cacheKeyEquals_none_amended :
    (∀ b : CacheKey, b ≠ CacheKey.none →
      cacheKeyEquals CacheKey.none b = false ∧ cacheKeyEquals b CacheKey.none = false) ∧
    cacheKeyEquals CacheKey.none CacheKey.none = true ∧
    (∀ freshId : Nat, createCacheKey freshId Option.none = CacheKey.none) ∧
    (∀ s : CtrlState, s.hasView = true → s.pinned = false →
      s.currentCacheKey = CacheKey.none →
      s.update false CacheKey.none = { s with title := Option.none }) := by
  refine ⟨?_, by decide, fun _ => rfl, ?_⟩
  · intro b hb
    cases b with
    | none => exact absurd rfl hb
    | document kb =>
      constructor <;> rfl
  · intro s hView hPin hKey
    refine update_cacheHit s false CacheKey.none hView hPin ?_
    rw [hKey]
    rfl

theorem cacheKeyEquals_none_amended_witness :
    (cacheKeyEquals CacheKey.none (CacheKey.document ⟨0, "file:///a.ts", 1, Option.none⟩) = false ∧
      cacheKeyEquals (CacheKey.document ⟨0, "file:///a.ts", 1, Option.none⟩) CacheKey.none = false) ∧
    (initCtrlState true false UpdateMode.live).update false CacheKey.none
      = { initCtrlState true false UpdateMode.live with title := Option.none } :=
  ⟨cacheKeyEquals_none_amended.1 (CacheKey.document ⟨0, "file:///a.ts", 1, Option.none⟩)
      (by decide),
    cacheKeyEquals_none_amended.2.2.2 (initCtrlState true false UpdateMode.live) rfl rfl rfl⟩

/-- C10: `cacheKeyEquals` is symmetric — for every pair of cache keys
(`None` or `Document`, with any combination of absent or present word
ranges, including the modelled object identities), swapping the arguments
yields the same boolean. -/
theorem cacheKeyEquals_symmetric (a b : CacheKey) :
    cacheKeyEquals a b = cacheKeyEquals b a := by
  cases a with
  | none =>
    cases b with
    | none => rfl
    | document kb => rfl
  | document ka =>
    cases b with
    | none => rfl
    | document kb =>
      simp only [cacheKeyEquals, cacheKeyRefEq, CacheKey.typeTag]
      by_cases hid : ka.objId = kb.objId
      · simp [hid]
      · simp only [ne_eq, not_true_eq_false, if_false,
          beq_iff_eq, hid, Ne.symm hid, ite_false]
        exact documentCacheKey_equals_symm ka kb

/-- A concrete reachable controller state with fetch id 0 as the current
loading entry: the initial resolved view after one forced update. -/
def witnessCtrlState : CtrlState :=
  steps (initCtrlState true false UpdateMode.live) [Event.upd true CacheKey.none]

theorem superseded_fetch_never_dispatches_witness :
    witnessCtrlState.loading = some 0 ∧
    ((0 ∈ (witnessCtrlState.update true CacheKey.none).cancelled ∧
        (witnessCtrlState.update true CacheKey.none).loading = some witnessCtrlState.nextToken ∧
        0 ≠ witnessCtrlState.nextToken) ∧
      (∀ tr : List Event, ∀ p ∈ (steps (witnessCtrlState.update true CacheKey.none) tr).panel,
        p ∈ witnessCtrlState.panel ∨ p.1 ≠ 0) ∧
      (∀ htmlB htmlA : String,
        (steps (witnessCtrlState.update true CacheKey.none)
            [Event.complete witnessCtrlState.nextToken htmlB, Event.complete 0 htmlA]).panel
          = witnessCtrlState.panel ++
            [(witnessCtrlState.nextToken,
              if htmlB.length ≠ 0 then PanelMsg.update htmlB witnessCtrlState.updateMode
              else PanelMsg.noContent noContentBody witnessCtrlState.updateMode)])) :=
  ⟨by decide,
    superseded_fetch_never_dispatches witnessCtrlState 0 true CacheKey.none
      ⟨true, false, UpdateMode.live, [Event.upd true CacheKey.none], rfl⟩
      (by decide) (by decide) (by decide) (Or.inl rfl)⟩

theorem pinned_update_refreshes_only_title_witness :
    (initCtrlState true true UpdateMode.live).hasView = true ∧
    (initCtrlState true true UpdateMode.live).pinned = true ∧
    ((initCtrlState true true UpdateMode.live).update false CacheKey.none
        = { initCtrlState true true UpdateMode.live with title := some "(pinned)" } ∧
      ((initCtrlState true true UpdateMode.live).update false CacheKey.none).currentCacheKey
        = (initCtrlState true true UpdateMode.live).currentCacheKey ∧
      ((initCtrlState true true UpdateMode.live).update false CacheKey.none).loading
        = (initCtrlState true true UpdateMode.live).loading ∧
      ((initCtrlState true true UpdateMode.live).update false CacheKey.none).panel
        = (initCtrlState true true UpdateMode.live).panel ∧
      ((initCtrlState true true UpdateMode.live).update false CacheKey.none).inFlight
        = (initCtrlState true true UpdateMode.live).inFlight ∧
      ((initCtrlState true true UpdateMode.live).update false CacheKey.none).cancelled
        = (initCtrlState true true UpdateMode.live).cancelled) :=
  ⟨rfl, rfl,
    pinned_update_refreshes_only_title (initCtrlState true true UpdateMode.live)
      CacheKey.none rfl rfl⟩

/-! ## Claim theorems: pin tracking -/

/-- C4: a pin at (2,5) is detected as overwritten by a single edit
replacing the range (2,0)-(2,10) with any text, and the tracker becomes
entirely unpinned (position and document cleared). -/
theorem pin_overwritten_by_covering_edit (text : String) (rangeLength : Nat) :
    updatePinPosition ⟨some ⟨2, 5⟩, some "/doc.ts"⟩
      ⟨"/doc.ts", [⟨⟨⟨2, 0⟩, ⟨2, 10⟩⟩, text, rangeLength⟩]⟩
      = ⟨Option.none, Option.none⟩ := rfl

/-- C5: a pin at (2,5) survives a single insertion of "\n" at (1,0)
(range start = end = (1,0)) and is translated to (3,5). -/
theorem pin_translated_by_newline_insertion :
    updatePinPosition ⟨some ⟨2, 5⟩, some "/doc.ts"⟩
      ⟨"/doc.ts", [⟨⟨⟨1, 0⟩, ⟨1, 0⟩⟩, "\n", 0⟩]⟩
      = ⟨some ⟨3, 5⟩, some "/doc.ts"⟩ := by decide

/-- C6 counterexample: the deletion of range (2,3)-(2,5) (a batch with a
single edit, `rangeLength = 2`, empty inserted text) against the pin
(2,5) starts on the pinned line and its replaced range ends exactly at
the pinned character, so the claim ("ends at or before the pinned
character") predicts a character-delta contribution of 3 − 5 = −2; the
code instead treats the pin as inside the replaced range, flags it
overwritten and accumulates no character delta. -/
theorem charDelta_boundary_cex :
    (getTranslationTo ⟨2, 5⟩ [⟨⟨⟨2, 3⟩, ⟨2, 5⟩⟩, "", 2⟩]).characterDelta = 0 ∧
    (getTranslationTo ⟨2, 5⟩ [⟨⟨⟨2, 3⟩, ⟨2, 5⟩⟩, "", 2⟩]).characterDelta ≠ (3 : Int) - 5 ∧
    (getTranslationTo ⟨2, 5⟩ [⟨⟨⟨2, 3⟩, ⟨2, 5⟩⟩, "", 2⟩]).pinWasOverwritten = true := by
  decide

theorem isInRange_iff (r : Range) (p : Position) :
    isInRange r (some p) = true ↔
      (p.line ≥ r.start.line ∧ p.line ≤ r.endPos.line ∧
        p.character ≥ r.start.character ∧
        (p.character ≤ r.endPos.character ∨
          (r.start.character = 0 ∧ r.endPos.character = 0 ∧
            r.start.line ≠ r.endPos.line ∧ r.start.line = p.line))) := by
  simp only [isInRange, Bool.and_eq_true, Bool.or_eq_true, decide_eq_true_eq]
  tauto

/-- C6 (amended): processing one edit against the pinned position
accumulates a character delta exactly when the edit starts on the pinned
line, its replaced range's end character is strictly smaller than the
pinned character, and the range is not a multi-line block whose start and
end characters are both 0 (that shape instead counts as overwriting the
pin); in that case an insertion (`rangeLength = 0`) contributes the
inserted text's length — or 0 when the inserted text ends with a
newline — and a deletion/replacement contributes
startCharacter − endCharacter. -/
theorem charDelta_characterization (pos : Position) (acc : Translation)
    (c : ContentChange) (hvalid : c.range.valid) :
    (applyContentChange pos acc c).characterDelta =
      acc.characterDelta +
        (if c.range.start.line = pos.line ∧ c.range.endPos.character < pos.character ∧
            ¬(c.range.start.character = 0 ∧ c.range.endPos.character = 0 ∧
              c.range.start.line ≠ c.range.endPos.line)
        then
          (if c.rangeLength = 0 then
            (if (splitLines c.text).getLastD "" = "" then 0 else (c.text.length : Int))
          else (c.range.start.character : Int) - (c.range.endPos.character : Int))
        else 0) := by
  obtain ⟨⟨⟨sl, sc⟩, ⟨el, ec⟩⟩, text, rangeLength⟩ := c
  obtain ⟨L, C⟩ := pos
  simp only [Range.valid] at hvalid
  dsimp only at hvalid ⊢
  unfold applyContentChange
  dsimp only
  by_cases h1 : sl > L
  · rw [if_pos h1, if_neg (by omega), add_zero]
  · rw [if_neg h1]
    by_cases hIn : isInRange ⟨⟨sl, sc⟩, ⟨el, ec⟩⟩ (some ⟨L, C⟩) = true
    · rw [if_pos hIn]
      rw [isInRange_iff] at hIn
      dsimp only at hIn ⊢
      rw [if_neg (by omega), add_zero]
    · rw [if_neg hIn]
      by_cases hGuard : sl ≠ L ∨ C ≤ ec
      · rw [if_pos hGuard]
        dsimp only
        rw [if_neg (by omega), add_zero]
      · rw [if_neg hGuard]
        rw [isInRange_iff] at hIn
        dsimp only at hIn
        have hcond : sl = L ∧ ec < C ∧ ¬(sc = 0 ∧ ec = 0 ∧ sl ≠ el) := by
          refine ⟨by omega, by omega, ?_⟩
          rintro ⟨hsc, hec, hne⟩
          exact hIn (by omega)
        rw [if_pos hcond]
        dsimp only
        by_cases hAdd : rangeLength = 0
        · by_cases hNl : (splitLines text).getLastD "" = ""
          · simp [hAdd, hNl]
          · simp [hAdd, hNl]
        · simp [hAdd]

theorem charDelta_characterization_witness :
    (⟨⟨⟨2, 0⟩, ⟨2, 4⟩⟩, "", 4⟩ : ContentChange).range.valid ∧
    (applyContentChange ⟨2, 5⟩ ⟨0, 0, false⟩ ⟨⟨⟨2, 0⟩, ⟨2, 4⟩⟩, "", 4⟩).characterDelta
      = (0 : Int) +
        (if (2 : Nat) = 2 ∧ (4 : Nat) < 5 ∧ ¬((0 : Nat) = 0 ∧ (4 : Nat) = 0 ∧ (2 : Nat) ≠ 2)
        then
          (if (4 : Nat) = 0 then
            (if (splitLines "").getLastD "" = "" then 0 else ((("" : String).length : Int)))
          else ((0 : Nat) : Int) - ((4 : Nat) : Int))
        else 0) :=
  ⟨Or.inr ⟨rfl, by decide⟩,
    charDelta_characterization ⟨2, 5⟩ ⟨0, 0, false⟩ ⟨⟨⟨2, 0⟩, ⟨2, 4⟩⟩, "", 4⟩
      (Or.inr ⟨rfl, by decide⟩)⟩

/-! ## Claim theorems: panel, renderer, highlighter -/

/-- C7 counterexample: after real content has been shown (`update "X"`), a
`noContent` message in sticky mode is ignored entirely — `setState` is not
called, so the persisted state still carries body "X" with the `noContent`
flag unset, contradicting the claim that the flag is persisted in both
modes. -/
theorem sticky_noContent_not_persisted :
    (handleMessage (handleMessage initPanelState (PanelMsg.update "X" UpdateMode.sticky))
        (PanelMsg.noContent "no docs" UpdateMode.sticky)).savedState
      = some { body := some "X", noContent := false } ∧
    (handleMessage (handleMessage initPanelState (PanelMsg.update "X" UpdateMode.sticky))
        (PanelMsg.noContent "no docs" UpdateMode.sticky)).savedState
      ≠ some { body := Option.none, noContent := true } := by
  decide

/-- C7 (amended): after the panel has displayed real content via an
`update` message, a `noContent` message in sticky mode leaves both the
displayed content and the persisted state unchanged (in particular the
`noContent` flag is not persisted), while in live mode it replaces the
display with the placeholder and persists the `noContent` flag; when a
`noContent` message is the panel's first message, the flag is persisted
in both modes. -/
theorem panel_noContent_modes (X b : String) (m : UpdateMode) :
    (handleMessage (handleMessage initPanelState (PanelMsg.update X m))
        (PanelMsg.noContent b UpdateMode.sticky))
      = { displayed := X
          savedState := some { body := some X, noContent := false }
          hasUpdated := true } ∧
    (handleMessage (handleMessage initPanelState (PanelMsg.update X m))
        (PanelMsg.noContent b UpdateMode.live))
      = { displayed := noContentHtml b
          savedState := some { body := Option.none, noContent := true }
          hasUpdated := true } ∧
    (handleMessage initPanelState (PanelMsg.noContent b UpdateMode.sticky)).savedState
      = some { body := Option.none, noContent := true } ∧
    (handleMessage initPanelState (PanelMsg.noContent b UpdateMode.live)).savedState
      = some { body := Option.none, noContent := true } := by
  refine ⟨?_, ?_, ?_, ?_⟩ <;> simp [handleMessage, initPanelState]

/-- C8 counterexample: the fragment list `['', '   ']` does not collapse
to no content — the whitespace-only fragment survives the length-0 filter,
so `render` hands `"   "` to the external markdown engine and returns the
(sanitized) engine output; with the engine and sanitizer instantiated by
the identity function the result is `"   "`, not `''`. -/
theorem render_whitespace_fragment_cex :
    render id id [⟨[HoverFragment.plain "", HoverFragment.plain "   "]⟩] = "   " ∧
    render id id [⟨[HoverFragment.plain "", HoverFragment.plain "   "]⟩] ≠ "" ∧
    ((([HoverFragment.plain "", HoverFragment.plain "   "]).map getMarkdown).filter
        (fun content => content.length > 0)) = ["   "] := by
  decide

/-- C8 (amended): `render` returns the empty string exactly in the cases
where no fragment survives the empty-fragment filter (for every markdown
engine and sanitizer); in particular `render []` is the empty string.  The
filter only drops fragments whose length is 0, so the whitespace-only
fragment `'   '` survives it and `render(['', '   '])` is the sanitized
engine rendering of `'   '` rather than a guaranteed empty string. -/
theorem render_no_surviving_fragment_empty
    (markedParse sanitize : String → String) (hovers : List Hover)
    (h : (((hovers.flatMap Hover.contents).map getMarkdown).filter
        (fun content => content.length > 0)) = []) :
    render markedParse sanitize hovers = "" ∧
    render markedParse sanitize [] = "" ∧
    (∀ s : String, s.length > 0 →
      (([HoverFragment.plain "", HoverFragment.plain s]).map getMarkdown).filter
        (fun content => content.length > 0) = [s]) := by
  refine ⟨?_, rfl, ?_⟩
  · unfold render
    rw [h]
    rfl
  · intro s hs
    simp [getMarkdown, List.filter, hs]

theorem render_no_surviving_fragment_empty_witness :
    render id id [⟨[HoverFragment.plain "", HoverFragment.plain ""]⟩] = "" ∧
    render id id [] = "" ∧
    (∀ s : String, s.length > 0 →
      (([HoverFragment.plain "", HoverFragment.plain s]).map getMarkdown).filter
        (fun content => content.length > 0) = [s]) :=
  render_no_surviving_fragment_empty id id
    [⟨[HoverFragment.plain "", HoverFragment.plain ""]⟩] (by decide)

/-- C9: if the external highlight service throws on the given code (for
every language id it might be called with), the highlighting closure
returns the original unhighlighted code text instead of propagating the
failure — for every code string and language hint. -/
theorem highlight_failure_returns_code
    (codeToHtml : String → String → Except HighlightFailure String)
    (docLanguageId code inputLanguage : String)
    (hthrows : ∀ languageId html, codeToHtml code languageId ≠ Except.ok html) :
    highlighterClosure (some codeToHtml) docLanguageId code inputLanguage = code := by
  unfold highlighterClosure
  by_cases hlang : (if inputLanguage = "" then docLanguageId else inputLanguage) = ""
  · simp [hlang]
  · simp only [hlang, ne_eq, not_false_eq_true, if_true]
    cases hid : getLanguageId (if inputLanguage = "" then docLanguageId else inputLanguage) with
    | none => rfl
    | some languageId =>
      cases hres : codeToHtml code languageId with
      | ok html => exact absurd hres (hthrows languageId html)
      | error e =>
        dsimp only
        rw [hres]

theorem highlight_failure_returns_code_witness :
    highlighterClosure (some fun _ _ => Except.error HighlightFailure.thrown)
      "typescript" "let x = 1" "unknown-lang" = "let x = 1" :=
  highlight_failure_returns_code (fun _ _ => Except.error HighlightFailure.thrown)
    "typescript" "let x = 1" "unknown-lang" (fun _ _ h => Except.noConfusion h)
